import Mathlib

/-!
Verification of the evolution engine of a terminal Game-of-Life variant
(`src/index.ts`).  The engine is embedded shallowly: boards are lists of
rows of `Bool` cells, the stochastic cell evaluator takes its two uniform
draws as explicit rational arguments, and the feedback controller and the
sliding history window of the main loop are modelled as explicit state
transformers.  Probabilities and random draws are modelled as exact
rationals.
-/

namespace GameOfLife

/-- Cell state: `true` for alive, `false` for dead (source `type Cell = boolean`). -/
abbrev Cell := Bool

/-- A row of cells (source `type Row = Cell[]`). -/
abbrev Row := List Cell

/-- A board: a list of rows (source `type Board = Cell[][]`). -/
abbrev Board := List Row

/-- Indexing a row at a possibly negative or out-of-range position, as the
source's `row[nx]` inside `last_board[ny]?.[nx] ? 1 : 0`: an out-of-range
access yields `undefined`, which is falsy, hence dead. -/
def rowGet (r : Row) (i : ℤ) : Cell :=
  if 0 ≤ i then r.getD i.toNat false else false

/-- Indexing a board as the source's `last_board[ny]?.[nx] ? 1 : 0`: a missing
row (negative or out-of-range `ny`) short-circuits to `undefined`, which is
falsy, hence dead. -/
def boardGet (g : Board) (ny nx : ℤ) : Cell :=
  if 0 ≤ ny then rowGet (g.getD ny.toNat []) nx else false

/-- The eight offset pairs of the `neighbors` array in `cell_updater`.
Each entry is destructured as `[dy, dx]` in the source, so the first
component is the row offset and the second the column offset. -/
def neighbors : List (ℤ × ℤ) :=
  [(-1, -1), (-1, 0), (-1, 1), (0, -1), (0, 1), (1, -1), (1, 0), (1, 1)]

/-- The `living_neighbors` reduction of `cell_updater`: fold over the eight
offsets, adding 1 whenever `last_board[y+dy]?.[x+dx]` is alive. -/
def living_neighbors (x y : ℤ) (g : Board) : ℕ :=
  neighbors.foldl (fun count d => count + (if boardGet g (y + d.1) (x + d.2) then 1 else 0)) 0

/-- The cell evaluator produced by `cell_updater_generator`, with the two
`Math.random()` call sites made explicit: `r1` is the draw of the
flesh-wound site (`Math.random() < only_a_flesh_wound_percent`) and `r2`
the draw of the abduction site (`Math.random() > alien_abduction_percent`).
The source reads `last_board[y][x]` directly; for in-bounds coordinates
(the only ones the program ever passes) this coincides with `boardGet`. -/
def cell_updater (p_fw p_ab r1 r2 : ℚ) (x y : ℤ) (g : Board) : Cell :=
  (decide (living_neighbors x y g = 3)
    || (decide (living_neighbors x y g = 2) && boardGet g y x)
    || (decide (r1 < p_fw) && boardGet g y x))
  && decide (p_ab < r2)

/-- The coordinate `(x, y)` addresses an actual cell of `g` (the source's
`last_board[y][x]` would not hit `undefined`). -/
def inBounds (g : Board) (y x : ℤ) : Prop :=
  0 ≤ y ∧ y < g.length ∧ 0 ≤ x ∧ x < (g.getD y.toNat []).length

instance (g : Board) (y x : ℤ) : Decidable (inBounds g y x) := by
  unfold inBounds; infer_instance

/-- Source `update_row`: tail-recursive row construction.  `gW` and `gH`
are the module-level constants `WIDTH` and `HEIGHT` (terminal dimensions),
which the source uses — not the `width`/`height` arguments — to recover the
coordinates: `x = WIDTH - width`, `y = HEIGHT - height`. -/
def update_row (gW gH : ℤ) (f : ℤ → ℤ → Board → Cell) (g : Board) :
    ℕ → ℕ → Row → Row
  | 0, _, row => row
  | w + 1, height, row =>
      update_row gW gH f g w height
        (row ++ [f (gW - (w + 1 : ℕ)) (gH - (height : ℕ)) g])

/-- Source `update_board`: tail-recursive board construction, appending one
row per recursion step, passing the current `height` down to `update_row`. -/
def update_board (gW gH : ℤ) (width : ℕ) (f : ℤ → ℤ → Board → Cell) (g : Board) :
    ℕ → Board → Board
  | 0, curr => curr
  | h + 1, curr =>
      update_board gW gH width f g h
        (curr ++ [update_row gW gH f g width (h + 1) []])

/-- Source `are_boards_equal`: dimension checks and cell-by-cell comparison
by index. -/
def are_boards_equal (board1 board2 : Board) : Bool :=
  decide (board1.length = board2.length) &&
  (List.range board1.length).all (fun i =>
    decide ((board1.getD i []).length = (board2.getD i []).length) &&
    (List.range (board1.getD i []).length).all (fun j =>
      (board1.getD i []).getD j false == (board2.getD i []).getD j false))

/-- The two mutable probability variables of `start_game`. -/
structure Params where
  only_a_flesh_wound_percent : ℚ
  alien_abduction_percent : ℚ
  deriving DecidableEq, Repr

/-- Initial parameter state of `start_game`: both probabilities start at 0. -/
def params0 : Params := ⟨0, 0⟩

/-- The source's flesh-wound increment `0.00001`, exactly. -/
def fw_increment : ℚ := 1 / 100000

/-- The source's abduction increment `0.0000001`, exactly. -/
def ab_increment : ℚ := 1 / 10000000

/-- The stagnant branch of the loop: both parameters grow by their fixed
increments. -/
def escalate (p : Params) : Params :=
  ⟨p.only_a_flesh_wound_percent + fw_increment,
   p.alien_abduction_percent + ab_increment⟩

/-- The non-stagnant branch of the loop: when the flesh-wound probability is
positive it is reset to 0; the abduction probability is left untouched. -/
def relax (p : Params) : Params :=
  if 0 < p.only_a_flesh_wound_percent
  then ⟨0, p.alien_abduction_percent⟩
  else p

/-- One parameter update of the loop, keyed by the stagnation verdict. -/
def controller_step (stagnant : Bool) (p : Params) : Params :=
  if stagnant then escalate p else relax p

/-- Parameter state after `t` loop iterations, given the stagnation verdict
of each iteration. -/
def paramTrace (stag : ℕ → Bool) (p0 : Params) : ℕ → Params
  | 0 => p0
  | t + 1 => controller_step (stag t) (paramTrace stag p0 t)

/-- Source `prev_board_count`: window capacity of the main loop. -/
def prev_board_count : ℕ := 6

/-- One update of `prev_boards`, capacity `K`: `shift()` (drop the oldest,
at the head) when the window is full, then `push(board)` at the tail. -/
def window_step (K : ℕ) (w : List Board) (b : Board) : List Board :=
  (if K ≤ w.length then w.drop 1 else w) ++ [b]

/-- Content of `prev_boards` at the start of iteration `t`, for the board
sequence `bs` (where `bs t` is the board rendered at iteration `t`). -/
def window_at (K : ℕ) (bs : ℕ → Board) : ℕ → List Board
  | 0 => []
  | t + 1 => window_step K (window_at K bs t) (bs t)

/-- The loop's stagnation check:
`prev_boards.some(prev_board => are_boards_equal(board, prev_board))`. -/
def is_stagnant (w : List Board) (b : Board) : Bool :=
  w.any (fun pb => are_boards_equal b pb)

/-- A 3×3 board holding a horizontal blinker. -/
def blinker : Board := [[false, false, false], [true, true, true], [false, false, false]]

/-- A 2×2 board with every cell alive (a block). -/
def block : Board := [[true, true], [true, true]]

/-- A 2×2 board whose only live cell is at the origin. -/
def oneAlive : Board := [[true, false], [false, false]]

/-- A concrete evaluator that is alive exactly at coordinate `(0, 0)`,
used to exhibit which coordinates the board generator feeds to its
evaluator. -/
def cEval0 : ℤ → ℤ → Board → Cell := fun x y _ => decide (x = 0 ∧ y = 0)

/-- A constant board sequence, used to instantiate the window theorems. -/
def constBoards : ℕ → Board := fun _ => [[true]]

lemma foldl_add_ite (q : ℤ × ℤ → Bool) (l : List (ℤ × ℤ)) (n : ℕ) :
    l.foldl (fun c d => c + (if q d then 1 else 0)) n = n + (l.filter q).length := by
  induction l generalizing n with
  | nil => simp
  | cons d l ih =>
      by_cases h : q d
      · simp [List.filter_cons, h, ih]
        omega
      · simp [List.filter_cons, h, ih]

lemma living_neighbors_eq_filter (x y : ℤ) (g : Board) :
    living_neighbors x y g =
      (neighbors.filter (fun d => boardGet g (y + d.1) (x + d.2))).length := by
  unfold living_neighbors
  rw [foldl_add_ite]
  omega

/-- C6: the neighborhood count equals the number of alive cells among exactly
the 8 Moore offsets (row and column offsets in `{-1,0,1}`, the pair `(0,0)`
excluded), any coordinate outside the grid reads as dead (no wraparound),
and the count never exceeds 8. -/
theorem neighborhood_counter_correct (x y : ℤ) (g : Board) :
    living_neighbors x y g =
      (((({-1, 0, 1} : Finset ℤ) ×ˢ ({-1, 0, 1} : Finset ℤ)).erase (0, 0)).filter
        (fun d => boardGet g (y + d.1) (x + d.2) = true)).card ∧
    (∀ j i : ℤ, (j < 0 ∨ (g.length : ℤ) ≤ j ∨ i < 0 ∨ ((g.getD j.toNat []).length : ℤ) ≤ i) →
      boardGet g j i = false) ∧
    living_neighbors x y g ≤ 8 := by
  refine ⟨?_, ?_, ?_⟩
  · have hset : ((({-1, 0, 1} : Finset ℤ) ×ˢ ({-1, 0, 1} : Finset ℤ)).erase (0, 0))
        = neighbors.toFinset := by decide
    rw [hset]
    have hfil : neighbors.toFinset.filter (fun d => boardGet g (y + d.1) (x + d.2) = true)
        = (neighbors.filter (fun d => boardGet g (y + d.1) (x + d.2))).toFinset := by
      ext d
      simp [List.mem_filter]
    rw [hfil, List.toFinset_card_of_nodup (List.Nodup.filter _ (by decide)),
      living_neighbors_eq_filter]
  · intro j i h
    unfold boardGet rowGet
    by_cases hj : 0 ≤ j
    · rw [if_pos hj]
      by_cases hi : 0 ≤ i
      · rw [if_pos hi]
        rcases h with h | h | h | h
        · omega
        · rw [List.getD_eq_default g [] (by omega)]
          simp
        · omega
        · exact List.getD_eq_default _ _ (by omega)
      · rw [if_neg hi]
    · rw [if_neg hj]
  · rw [living_neighbors_eq_filter]
    calc (neighbors.filter (fun d => boardGet g (y + d.1) (x + d.2))).length
        ≤ neighbors.length := List.length_filter_le _ _
      _ = 8 := rfl

/-- C6 witness: concrete evaluation of the theorem, discharging the inner
out-of-bounds hypothesis at the coordinate `(0, 3)` of the blinker board. -/
theorem neighborhood_counter_correct_witness :
    boardGet blinker 3 0 = false ∧ living_neighbors 1 1 blinker ≤ 8 :=
  ⟨(neighborhood_counter_correct 1 1 blinker).2.1 3 0 (by decide),
   (neighborhood_counter_correct 1 1 blinker).2.2⟩

/-- C1 (amended): the abduction perturbation is not gated on the neighbor
count being 4.  For every live cell whose base-rule/flesh-wound stages
produce alive (in particular any live cell with 2 or 3 live neighbors), the
result is alive iff the abduction draw exceeds `alien_abduction_percent`,
whatever the neighbor count. -/
theorem abduction_ungated_on_neighbors (p_fw p_ab r1 r2 : ℚ) (x y : ℤ) (g : Board)
    (ha : boardGet g y x = true)
    (hn : living_neighbors x y g = 2 ∨ living_neighbors x y g = 3 ∨ r1 < p_fw) :
    cell_updater p_fw p_ab r1 r2 x y g = decide (p_ab < r2) := by
  unfold cell_updater
  rcases hn with h | h | h <;> simp [ha, h]

/-- C1 witness: the live corner cell of the block (3 live neighbors), with
`alien_abduction_percent = 1/2` and abduction draw `1/4`. -/
theorem abduction_ungated_on_neighbors_witness :
    cell_updater 0 (1/2) 0 (1/4) 0 0 block = decide ((1 : ℚ)/2 < 1/4) :=
  abduction_ungated_on_neighbors 0 (1/2) 0 (1/4) 0 0 block (by decide)
    (Or.inr (Or.inl (by decide)))

/-- C1 counterexample: a live cell with exactly 3 live neighbors (so n ≠ 4):
the abduction draw alone flips the result, so the claim that the abduction
draw has no effect when n ≠ 4 is false. -/
theorem abduction_affects_three_neighbor_cell :
    boardGet block 0 0 = true ∧
    living_neighbors 0 0 block = 3 ∧
    cell_updater 0 (1/2) 0 (1/4) 0 0 block = false ∧
    cell_updater 0 (1/2) 0 (3/4) 0 0 block = true := by
  have hn : living_neighbors 0 0 block = 3 := by decide
  have hb : boardGet block 0 0 = true := by decide
  refine ⟨hb, hn, ?_, ?_⟩ <;> simp [cell_updater, hn, hb] <;> norm_num

/-- C2 (amended): a dead cell never becomes alive unless it has exactly 3
live neighbors: for every dead cell, all parameters and all draws, the
result is alive iff the neighbor count is 3 and the abduction draw exceeds
`alien_abduction_percent`.  There is no find-a-way perturbation. -/
theorem dead_cell_needs_three_neighbors (p_fw p_ab r1 r2 : ℚ) (x y : ℤ) (g : Board)
    (hd : boardGet g y x = false) :
    cell_updater p_fw p_ab r1 r2 x y g =
      (decide (living_neighbors x y g = 3) && decide (p_ab < r2)) := by
  unfold cell_updater
  simp [hd]

/-- C2 witness: the dead cell `(1, 0)` of `oneAlive`, which has one live
neighbor. -/
theorem dead_cell_needs_three_neighbors_witness :
    cell_updater 1 0 (1/2) (1/2) 1 0 oneAlive =
      (decide (living_neighbors 1 0 oneAlive = 3) && decide ((0 : ℚ) < 1/2)) :=
  dead_cell_needs_three_neighbors 1 0 (1/2) (1/2) 1 0 oneAlive (by decide)

/-- C2 counterexample: the dead cell `(1, 0)` of `oneAlive` has exactly one
live neighbor (so n ≥ 1 and n ≠ 3), yet no pair of draws whatsoever makes it
alive — even with `only_a_flesh_wound_percent = 1` — so there is no
positive-probability path to life and no find-a-way perturbation in the
evaluator. -/
theorem no_find_a_way_path :
    boardGet oneAlive 0 1 = false ∧
    living_neighbors 1 0 oneAlive = 1 ∧
    ¬ ∃ r1 r2 : ℚ, cell_updater 1 0 r1 r2 1 0 oneAlive = true := by
  refine ⟨by decide, by decide, ?_⟩
  rintro ⟨r1, r2, h⟩
  have hn : living_neighbors 1 0 oneAlive = 1 := by decide
  have hb : boardGet oneAlive 0 1 = false := by decide
  simp [cell_updater, hn, hb] at h

/-- C4 (amended): for draws in `[0,1)`: (1) with both parameters 0 and a
strictly positive abduction draw, the evaluator is deterministic and
computes the classical rule — a live cell survives iff it has 2 or 3 live
neighbors, a dead cell becomes alive iff it has exactly 3 (at abduction
draw exactly 0 the comparison `draw > 0` fails and the cell dies anyway,
so determinism over all of `[0,1)` does not hold); (2) a flesh-wound
parameter ≤ 0 never fires: the evaluator coincides with the rule without
the flesh-wound disjunct; (3) a flesh-wound parameter ≥ 1 always fires:
a live cell's fate is decided by the abduction draw alone, whatever its
neighbor count; (4) an abduction parameter ≥ 1 always fires: the cell is
forced dead. -/
theorem zero_params_classical_rule (p_fw p_ab r1 r2 : ℚ) (x y : ℤ) (g : Board)
    (h1 : 0 ≤ r1) (h2 : r1 < 1) (_h3 : 0 ≤ r2) (h4 : r2 < 1) (_hb : inBounds g y x) :
    (0 < r2 →
      cell_updater 0 0 r1 r2 x y g =
        (if boardGet g y x
         then decide (living_neighbors x y g = 2 ∨ living_neighbors x y g = 3)
         else decide (living_neighbors x y g = 3))) ∧
    (p_fw ≤ 0 →
      cell_updater p_fw p_ab r1 r2 x y g =
        ((decide (living_neighbors x y g = 3)
          || (decide (living_neighbors x y g = 2) && boardGet g y x))
         && decide (p_ab < r2))) ∧
    (1 ≤ p_fw → boardGet g y x = true →
      cell_updater p_fw p_ab r1 r2 x y g = decide (p_ab < r2)) ∧
    (1 ≤ p_ab →
      cell_updater p_fw p_ab r1 r2 x y g = false) := by
  refine ⟨?_, ?_, ?_, ?_⟩
  · intro hr2
    unfold cell_updater
    have hx : ¬ (r1 < 0) := not_lt.mpr h1
    cases ha : boardGet g y x <;> simp [hx, hr2, Bool.or_comm]
  · intro hp
    unfold cell_updater
    have hx : ¬ (r1 < p_fw) := by linarith
    simp [hx]
  · intro hp ha
    unfold cell_updater
    have hx : r1 < p_fw := lt_of_lt_of_le h2 hp
    simp [hx, ha]
  · intro hp
    unfold cell_updater
    have hx : ¬ (p_ab < r2) := by linarith
    simp [hx]

/-- C4 witness: the centre of the blinker with both draws `1/2`, exercising
all four clauses — zero parameters (classical rule), flesh-wound parameter
`-1` (never fires), flesh-wound parameter `2` (always fires), abduction
parameter `2` (always fires, cell forced dead). -/
theorem zero_params_classical_rule_witness :
    (cell_updater 0 0 (1/2) (1/2) 1 1 blinker =
      (if boardGet blinker 1 1
       then decide (living_neighbors 1 1 blinker = 2 ∨ living_neighbors 1 1 blinker = 3)
       else decide (living_neighbors 1 1 blinker = 3))) ∧
    (cell_updater (-1) 0 (1/2) (1/2) 1 1 blinker =
      ((decide (living_neighbors 1 1 blinker = 3)
        || (decide (living_neighbors 1 1 blinker = 2) && boardGet blinker 1 1))
       && decide ((0 : ℚ) < 1/2))) ∧
    (cell_updater 2 0 (1/2) (1/2) 1 1 blinker = decide ((0 : ℚ) < 1/2)) ∧
    (cell_updater 0 2 (1/2) (1/2) 1 1 blinker = false) := by
  refine ⟨?_, ?_, ?_, ?_⟩
  · exact (zero_params_classical_rule 0 0 (1/2) (1/2) 1 1 blinker (by norm_num) (by norm_num)
      (by norm_num) (by norm_num) (by decide)).1 (by norm_num)
  · exact (zero_params_classical_rule (-1) 0 (1/2) (1/2) 1 1 blinker (by norm_num) (by norm_num)
      (by norm_num) (by norm_num) (by decide)).2.1 (by norm_num)
  · exact (zero_params_classical_rule 2 0 (1/2) (1/2) 1 1 blinker (by norm_num) (by norm_num)
      (by norm_num) (by norm_num) (by decide)).2.2.1 (by norm_num) (by decide)
  · exact (zero_params_classical_rule 0 2 (1/2) (1/2) 1 1 blinker (by norm_num) (by norm_num)
      (by norm_num) (by norm_num) (by decide)).2.2.2 (by norm_num)

/-- C4 counterexample: with both parameters 0 the centre of the blinker (a
live cell with 2 live neighbors) dies under abduction draw 0 but survives
under abduction draw 1/2 — both draws lie in `[0,1)` — so the evaluator is
not deterministic over all draw sequences in `[0,1)`, and a parameter ≤ 0
does not prevent the abduction perturbation from firing. -/
theorem zero_params_not_deterministic :
    boardGet blinker 1 1 = true ∧
    living_neighbors 1 1 blinker = 2 ∧
    cell_updater 0 0 0 0 1 1 blinker = false ∧
    cell_updater 0 0 0 (1/2) 1 1 blinker = true := by
  have hn : living_neighbors 1 1 blinker = 2 := by decide
  have hb : boardGet blinker 1 1 = true := by decide
  refine ⟨hb, hn, ?_, ?_⟩ <;> simp [cell_updater, hn, hb]

/-- C3 (amended): the non-stagnant branch resets `only_a_flesh_wound_percent`
to exactly 0 in a single transition when it is positive (a full reset, not a
scaled decrement) and otherwise changes nothing; it never changes
`alien_abduction_percent`.  Hence the flesh-wound parameter is 0 after one
such transition and stays 0 under further ones, neither parameter ever
becomes negative, and the abduction parameter is never decreased (it does
not decay back toward 0). -/
theorem relax_resets_flesh_wound (p : Params)
    (hfw : 0 ≤ p.only_a_flesh_wound_percent) (hab : 0 ≤ p.alien_abduction_percent) :
    (relax p).only_a_flesh_wound_percent = 0 ∧
    (relax p).alien_abduction_percent = p.alien_abduction_percent ∧
    relax (relax p) = relax p ∧
    0 ≤ (relax p).only_a_flesh_wound_percent ∧
    0 ≤ (relax p).alien_abduction_percent := by
  unfold relax
  by_cases h : 0 < p.only_a_flesh_wound_percent
  · simp [h, hab]
  · have h0 : p.only_a_flesh_wound_percent = 0 := le_antisymm (not_lt.mp h) hfw
    simp [h, h0, hab]

/-- C3 witness: the parameter state reached after one escalation from zero. -/
theorem relax_resets_flesh_wound_witness :
    (relax ⟨fw_increment, ab_increment⟩).only_a_flesh_wound_percent = 0 ∧
    (relax ⟨fw_increment, ab_increment⟩).alien_abduction_percent = ab_increment ∧
    relax (relax ⟨fw_increment, ab_increment⟩) = relax ⟨fw_increment, ab_increment⟩ ∧
    0 ≤ (relax ⟨fw_increment, ab_increment⟩).only_a_flesh_wound_percent ∧
    0 ≤ (relax ⟨fw_increment, ab_increment⟩).alien_abduction_percent :=
  relax_resets_flesh_wound ⟨fw_increment, ab_increment⟩
    (by norm_num [fw_increment]) (by norm_num [ab_increment])

/-- C3 counterexample: after one escalation from zero both parameters are
positive, yet a Relaxing transition leaves `alien_abduction_percent`
completely unchanged (no decrement at all, let alone by
`increment × decrement_scale`), and a second Relaxing transition still
leaves it unchanged — so the abduction parameter never reaches 0 by
relaxation. -/
theorem relax_ignores_abduction :
    0 < ab_increment ∧
    0 < fw_increment ∧
    relax ⟨fw_increment, ab_increment⟩ = ⟨0, ab_increment⟩ ∧
    (relax (relax ⟨fw_increment, ab_increment⟩)).alien_abduction_percent = ab_increment := by
  refine ⟨by norm_num [ab_increment], by norm_num [fw_increment], ?_, ?_⟩ <;>
    norm_num [relax, fw_increment, ab_increment]

/-- C9: on every step whose stagnation verdict is true, each of the two rule
parameters strictly increases by exactly its fixed increment (`0.00001`
for the flesh-wound probability, `0.0000001` for the abduction
probability); in particular both are non-decreasing over any run of
consecutive stagnant steps. -/
theorem escalation_increments (stag : ℕ → Bool) (p0 : Params) (N : ℕ)
    (h : ∀ i, i < N → stag i = true) :
    ∀ i, i < N →
      ((paramTrace stag p0 (i + 1)).only_a_flesh_wound_percent
          = (paramTrace stag p0 i).only_a_flesh_wound_percent + fw_increment) ∧
      ((paramTrace stag p0 (i + 1)).alien_abduction_percent
          = (paramTrace stag p0 i).alien_abduction_percent + ab_increment) ∧
      ((paramTrace stag p0 i).only_a_flesh_wound_percent
          ≤ (paramTrace stag p0 (i + 1)).only_a_flesh_wound_percent) ∧
      ((paramTrace stag p0 i).alien_abduction_percent
          ≤ (paramTrace stag p0 (i + 1)).alien_abduction_percent) := by
  intro i hi
  have hs : stag i = true := h i hi
  refine ⟨?_, ?_, ?_, ?_⟩ <;>
    simp [paramTrace, controller_step, hs, escalate] <;>
    norm_num [fw_increment, ab_increment]

/-- C9 witness: a single stagnant step starting from the zero parameters. -/
theorem escalation_increments_witness :
    ((paramTrace (fun _ => true) params0 1).only_a_flesh_wound_percent
        = (paramTrace (fun _ => true) params0 0).only_a_flesh_wound_percent + fw_increment) ∧
    ((paramTrace (fun _ => true) params0 1).alien_abduction_percent
        = (paramTrace (fun _ => true) params0 0).alien_abduction_percent + ab_increment) ∧
    ((paramTrace (fun _ => true) params0 0).only_a_flesh_wound_percent
        ≤ (paramTrace (fun _ => true) params0 1).only_a_flesh_wound_percent) ∧
    ((paramTrace (fun _ => true) params0 0).alien_abduction_percent
        ≤ (paramTrace (fun _ => true) params0 1).alien_abduction_percent) :=
  escalation_increments (fun _ => true) params0 1 (fun _ _ => rfl) 0 (by norm_num)

lemma controller_step_ab_mono (b : Bool) (p : Params) :
    p.alien_abduction_percent ≤ (controller_step b p).alien_abduction_percent := by
  cases b
  · show p.alien_abduction_percent ≤ (relax p).alien_abduction_percent
    unfold relax
    split <;> simp
  · show p.alien_abduction_percent ≤ (escalate p).alien_abduction_percent
    unfold escalate
    have h0 : (0 : ℚ) ≤ ab_increment := by norm_num [ab_increment]
    simp only
    linarith

/-- C10: starting from the initial parameters (both 0), the abduction
parameter is non-negative at every step of the loop and non-decreasing
from each step to the next, whatever sequence of stagnation verdicts the
run produces — once raised it never moves back toward 0. -/
theorem abduction_monotone (stag : ℕ → Bool) (t : ℕ) :
    (paramTrace stag params0 0).alien_abduction_percent = 0 ∧
    0 ≤ (paramTrace stag params0 t).alien_abduction_percent ∧
    (paramTrace stag params0 t).alien_abduction_percent
      ≤ (paramTrace stag params0 (t + 1)).alien_abduction_percent := by
  refine ⟨rfl, ?_, ?_⟩
  · induction t with
    | zero => norm_num [paramTrace, params0]
    | succ t ih =>
        calc (0 : ℚ) ≤ (paramTrace stag params0 t).alien_abduction_percent := ih
          _ ≤ (paramTrace stag params0 (t + 1)).alien_abduction_percent := by
              rw [paramTrace]
              exact controller_step_ab_mono _ _
  · rw [paramTrace]
    exact controller_step_ab_mono _ _

lemma update_row_eq (gW gH : ℤ) (f : ℤ → ℤ → Board → Cell) (g : Board) (h : ℕ) :
    ∀ (w : ℕ) (row : Row),
      update_row gW gH f g w h row
        = row ++ (List.range w).map (fun i : ℕ => f (gW - w + (i : ℤ)) (gH - h) g) := by
  intro w
  induction w with
  | zero => intro row; simp [update_row]
  | succ w ih =>
      intro row
      rw [update_row, ih, List.append_assoc]
      congr 1
      rw [List.range_succ_eq_map, List.map_cons, List.map_map, List.singleton_append]
      congr 1
      · congr 1
        push_cast
        ring
      · apply List.map_congr_left
        intro i _
        simp only [Function.comp]
        congr 1
        push_cast
        ring

lemma update_board_eq (gW gH : ℤ) (W : ℕ) (f : ℤ → ℤ → Board → Cell) (g : Board) :
    ∀ (h : ℕ) (curr : Board),
      update_board gW gH W f g h curr
        = curr ++ (List.range h).map
            (fun j : ℕ => (List.range W).map
              (fun i : ℕ => f (gW - W + (i : ℤ)) (gH - h + (j : ℤ)) g)) := by
  intro h
  induction h with
  | zero => intro curr; simp [update_board]
  | succ h ih =>
      intro curr
      rw [update_board, ih, List.append_assoc]
      congr 1
      rw [List.range_succ_eq_map, List.map_cons, List.map_map, List.singleton_append]
      congr 1
      · rw [update_row_eq]
        simp only [List.nil_append]
        apply List.map_congr_left
        intro i _
        congr 1
        push_cast
        ring
      · apply List.map_congr_left
        intro j _
        simp only [Function.comp]
        apply List.map_congr_left
        intro i _
        congr 1
        push_cast
        ring

/-- C5 (amended): the board generator evaluates its evaluator once per grid
position and places the result of position `(column, row)` at that row and
column of the new grid, reading only the previous grid — but the
coordinates fed to the evaluator are computed from the module-level
constants `WIDTH`/`HEIGHT`, not from the `width`/`height` arguments: cell
`(i, j)` of the output receives `f (WIDTH - W + i) (HEIGHT - H + j)`.  The
claimed coordinates `[0,W) × [0,H)` are obtained exactly when the arguments
equal the global dimensions, which is the case at every call site of the
program. -/
theorem board_generator_coordinates (gW gH : ℤ) (W H : ℕ)
    (f : ℤ → ℤ → Board → Cell) (g : Board) (_hW : 1 ≤ W) (_hH : 1 ≤ H) :
    update_board gW gH W f g H []
      = (List.range H).map
          (fun j : ℕ => (List.range W).map
            (fun i : ℕ => f (gW - W + (i : ℤ)) (gH - H + (j : ℤ)) g)) ∧
    (gW = W → gH = H →
      update_board gW gH W f g H []
        = (List.range H).map
            (fun j : ℕ => (List.range W).map (fun i : ℕ => f (i : ℤ) (j : ℤ) g))) := by
  refine ⟨by rw [update_board_eq]; simp, ?_⟩
  rintro rfl rfl
  rw [update_board_eq]
  simp

/-- C5 witness: a 3×3 generation with matching global and requested
dimensions, using the concrete evaluator `cEval0`. -/
theorem board_generator_coordinates_witness :
    update_board 3 3 3 cEval0 blinker 3 []
      = (List.range 3).map
          (fun j : ℕ => (List.range 3).map
            (fun i : ℕ => cEval0 (3 - ((3 : ℕ) : ℤ) + (i : ℤ)) (3 - ((3 : ℕ) : ℤ) + (j : ℤ)) blinker)) ∧
    ((3 : ℤ) = (3 : ℕ) → (3 : ℤ) = (3 : ℕ) →
      update_board 3 3 3 cEval0 blinker 3 []
        = (List.range 3).map
            (fun j : ℕ => (List.range 3).map (fun i : ℕ => cEval0 (i : ℤ) (j : ℤ) blinker))) :=
  board_generator_coordinates 3 3 3 3 cEval0 blinker (by norm_num) (by norm_num)

/-- C5 counterexample: with global dimensions 2×2 but requested dimensions
1×1, the single generated cell receives coordinate `(1, 1)`, not `(0, 0)`:
the output is `[[false]]` although the evaluator returns `true` at
`(0, 0)` — so the generator does not invoke the evaluator on
`[0,W) × [0,H)` for every `W, H ≥ 1`. -/
theorem board_generator_coordinate_shift :
    update_board 2 2 1 cEval0 [] 1 [] = [[false]] ∧ cEval0 0 0 [] = true := by
  refine ⟨by decide, by decide⟩

/-- C7: the generated board always has exactly `H` rows of exactly `W`
cells, for every evaluator (hence for every pattern of random draws and
also for the parameter-free initializer), every previous grid, and every
global dimension pair. -/
theorem grid_shape (gW gH : ℤ) (W H : ℕ) (f : ℤ → ℤ → Board → Cell) (g : Board)
    (_hW : 1 ≤ W) (_hH : 1 ≤ H) :
    (update_board gW gH W f g H []).length = H ∧
    ∀ r ∈ update_board gW gH W f g H [], r.length = W := by
  rw [update_board_eq]
  constructor
  · simp
  · intro r hr
    simp only [List.nil_append, List.mem_map] at hr
    obtain ⟨j, _, rfl⟩ := hr
    simp

/-- C7 witness: the 3×3 case with the concrete evaluator `cEval0`. -/
theorem grid_shape_witness :
    (update_board 3 3 3 cEval0 blinker 3 []).length = 3 ∧
    ∀ r ∈ update_board 3 3 3 cEval0 blinker 3 [], r.length = 3 :=
  grid_shape 3 3 3 3 cEval0 blinker (by norm_num) (by norm_num)

lemma are_boards_equal_iff (b1 b2 : Board) :
    are_boards_equal b1 b2 = true ↔ b1 = b2 := by
  constructor
  · intro h
    unfold are_boards_equal at h
    rw [Bool.and_eq_true, decide_eq_true_eq, List.all_eq_true] at h
    obtain ⟨hlen, hall⟩ := h
    refine List.ext_getElem hlen ?_
    intro i h1 h2
    have hi := hall i (List.mem_range.mpr h1)
    rw [Bool.and_eq_true, decide_eq_true_eq, List.all_eq_true] at hi
    obtain ⟨hrl, hcells⟩ := hi
    rw [List.getD_eq_getElem b1 [] h1, List.getD_eq_getElem b2 [] h2] at hrl
    refine List.ext_getElem hrl ?_
    intro j hj1 hj2
    have hj := hcells j (List.mem_range.mpr (by rw [List.getD_eq_getElem b1 [] h1]; exact hj1))
    rw [beq_iff_eq, List.getD_eq_getElem b1 [] h1, List.getD_eq_getElem b2 [] h2,
      List.getD_eq_getElem _ _ hj1, List.getD_eq_getElem _ _ hj2] at hj
    exact hj
  · rintro rfl
    unfold are_boards_equal
    simp [List.all_eq_true]

lemma window_at_eq (K : ℕ) (hK : 1 ≤ K) (bs : ℕ → Board) :
    ∀ t : ℕ, window_at K bs t = (List.range' (t - K) (min t K)).map bs := by
  intro t
  induction t with
  | zero => simp [window_at]
  | succ t ih =>
      rw [window_at, window_step, ih]
      rcases Nat.lt_or_ge t K with h | h
      · rw [if_neg (by simp [List.length_range']; omega)]
        have h1 : t - K = 0 := by omega
        have h2 : min t K = t := by omega
        have h3 : (t + 1) - K = 0 := by omega
        have h4 : min (t + 1) K = t + 1 := by omega
        rw [h1, h2, h3, h4, List.range'_concat]
        simp
      · rw [if_pos (by simp [List.length_range']; omega)]
        obtain ⟨L, rfl⟩ : ∃ L, K = L + 1 := ⟨K - 1, by omega⟩
        have h2 : min t (L + 1) = L + 1 := by omega
        have h4 : min (t + 1) (L + 1) = L + 1 := by omega
        rw [h2, h4, List.range'_succ, List.map_cons, List.drop_succ_cons, List.drop_zero,
          List.range'_concat, List.map_append]
        have e1 : t - (L + 1) + 1 = t + 1 - (L + 1) := by omega
        have e2 : t + 1 - (L + 1) + 1 * L = t := by omega
        rw [e1, e2]
        simp

/-- C8: the loop's stagnation check, run at step `t` against the sliding
window maintained with capacity `K` (drop-oldest-then-push, as the source
does with capacity `prev_board_count = 6`), returns true exactly when the
current board is identical to one of the boards of the last `K` steps; a
board seen only `K + 1` or more steps ago has been evicted and does not
count. -/
theorem stagnation_window_correct (K : ℕ) (bs : ℕ → Board) (t : ℕ) (hK : 1 ≤ K) :
    (is_stagnant (window_at K bs t) (bs t) = true ↔
      ∃ i, t - K ≤ i ∧ i < t ∧ bs t = bs i) := by
  rw [is_stagnant, window_at_eq K hK bs t, List.any_eq_true]
  constructor
  · rintro ⟨pb, hmem, heq⟩
    rw [List.mem_map] at hmem
    obtain ⟨m, hm, rfl⟩ := hmem
    rw [List.mem_range'] at hm
    obtain ⟨k, hk, rfl⟩ := hm
    rw [are_boards_equal_iff] at heq
    exact ⟨t - K + 1 * k, by omega, by omega, heq⟩
  · rintro ⟨i, h1, h2, heq⟩
    refine ⟨bs i, ?_, ?_⟩
    · rw [List.mem_map]
      refine ⟨i, ?_, rfl⟩
      rw [List.mem_range']
      exact ⟨i - (t - K), by omega, by omega⟩
    · rw [are_boards_equal_iff]
      exact heq

/-- C8 witness: capacity `prev_board_count` (the source's 6), a constant
board sequence, checked at step 1. -/
theorem stagnation_window_correct_witness :
    (is_stagnant (window_at prev_board_count constBoards 1) (constBoards 1) = true ↔
      ∃ i, 1 - prev_board_count ≤ i ∧ i < 1 ∧ constBoards 1 = constBoards i) :=
  stagnation_window_correct prev_board_count constBoards 1 (by norm_num [prev_board_count])

end GameOfLife
